import Mathlib

/-!
Verification of the AMM arbitrage graph engine
(`Strategies/amm-arbitrageur/data/graphfinder.py`, with its near-duplicate in
`mvp.py`): pool-graph construction, simple-cycle enumeration with rotational
deduplication, sequential swap simulation, golden-section profit optimization,
and the orchestrator pipeline.

Modelling conventions:
* Python `Decimal` arithmetic (context precision 60) is modelled as exact
  rational arithmetic over `ℚ`; short decimal literals such as `0.003`,
  `'1e-12'`, `'0.2'` convert exactly.
* Python floats that reach `Decimal(str(...))` with short decimal text are
  likewise exact; the constant `(1 + 5 ** 0.5) / 2` is embedded as the exact
  dyadic value of that IEEE double; and the `float(...)` coercion used as the
  `max` key in `maximize_profit_for_cycle` is embedded by `pyFloat`, the
  correctly-rounded (nearest, ties-to-even) 53-bit conversion returned as the
  exact rational value of the resulting double.
* Python dicts are insertion-ordered association lists; Python sets are
  membership-only lists.
* Fallible operations (indexing `cycle[0]` on an empty list) return `Option`.
-/

namespace GraphFinder

/-- `FEE_DEFAULT = 0.003` (graphfinder.py line 31). -/
def FEE_DEFAULT : ℚ := 3 / 1000

/-- One pool record, as in the expected input dicts of graphfinder.py:
`pair_id`, `token0`, `token1`, `reserve0`, `reserve1`, `fee`. -/
structure Pool where
  pair_id : String
  token0 : String
  token1 : String
  reserve0 : ℚ
  reserve1 : ℚ
  fee : ℚ
deriving DecidableEq, Repr

/-- One directed swap edge, as built by `build_graph_from_pools`
(graphfinder.py lines 61-79). -/
structure Edge where
  «to» : String
  pair_id : String
  reserve_in : ℚ
  reserve_out : ℚ
  fee : ℚ
  token_in : String
  token_out : String
deriving DecidableEq, Repr

/-- `get_amount_out` (graphfinder.py lines 35-43): Uniswap V2 getAmountOut.
Returns 0 on the non-positive guard; otherwise the fee-adjusted
constant-product output, with `Decimal` division modelled as exact `ℚ`
division. -/
def get_amount_out (amount_in reserve_in reserve_out fee : ℚ) : ℚ :=
  if amount_in ≤ 0 ∨ reserve_in ≤ 0 ∨ reserve_out ≤ 0 then 0
  else
    let fee_multiplier := 1 - fee
    let amount_in_with_fee := amount_in * fee_multiplier
    let numerator := amount_in_with_fee * reserve_out
    let denominator := reserve_in + amount_in_with_fee
    numerator / denominator

/-- A graph is a Python dict `token -> list of outgoing edges`, modelled as an
insertion-ordered association list. -/
abbrev Graph := List (String × List Edge)

/-- `graph.setdefault(t, []).append(e)`: append `e` to the entry of `t`,
creating the entry at the end if `t` is not yet a key. -/
def addEdge : Graph → String → Edge → Graph
  | [], t, e => [(t, [e])]
  | (k, es) :: rest, t, e =>
    if k = t then (k, es ++ [e]) :: rest else (k, es) :: addEdge rest t e

/-- `graph.get(t, [])`: the edge list of the first entry keyed `t`, else `[]`. -/
def lookupEdges : Graph → String → List Edge
  | [], _ => []
  | (k, es) :: rest, t => if k = t then es else lookupEdges rest t

/-- The `t0 -> t1` edge that `build_graph_from_pools` appends for a pool
(graphfinder.py lines 61-69). -/
def poolFwdEdge (p : Pool) : Edge :=
  ⟨p.token1, p.pair_id, p.reserve0, p.reserve1, p.fee, p.token0, p.token1⟩

/-- The `t1 -> t0` edge that `build_graph_from_pools` appends for a pool
(graphfinder.py lines 71-79). -/
def poolBwdEdge (p : Pool) : Edge :=
  ⟨p.token0, p.pair_id, p.reserve1, p.reserve0, p.fee, p.token1, p.token0⟩

/-- `build_graph_from_pools` (graphfinder.py lines 47-80): for each pool, in
order, append its two directed edges.  There is no validation of reserves or
fee anywhere in this function. -/
def build_graph_from_pools (pools : List Pool) : Graph :=
  pools.foldl
    (fun g p => addEdge (addEdge g p.token0 (poolFwdEdge p)) p.token1 (poolBwdEdge p)) []

/-- Order-preserving concatenation of mapped lists (Python list accumulation
across nested loops). -/
def concatMap (f : α → List β) : List α → List β
  | [] => []
  | a :: as => f a ++ concatMap f as

/-- The recursive `dfs` inside `find_simple_cycles` (graphfinder.py
lines 93-108).  Python's `depth` guard `if depth > max_len: return` is fuel:
a call at depth `d` has fuel `max_len - d + 1`, so fuel `0` is the guard
firing.  For each edge out of `current`, in list order: emit
`path ++ [edge]` when the edge closes the cycle at `start` with a non-empty
path, then recurse unless the target is visited or is the start. -/
def dfs (graph : Graph) (start : String) :
    ℕ → String → List Edge → List String → List (List Edge)
  | 0, _, _, _ => []
  | fuel + 1, current, path, visited =>
    concatMap
      (fun edge =>
        let nxt := edge.«to»
        let emitted := if nxt = start ∧ path ≠ [] then [path ++ [edge]] else []
        let branch :=
          if nxt ∈ visited ∨ nxt = start then []
          else dfs graph start fuel nxt (path ++ [edge]) (visited ++ [nxt])
        emitted ++ branch)
      (lookupEdges graph current)

/-- The token sequence used to build a cycle signature (graphfinder.py
line 117): the `token_in` of every edge, then the last edge's `token_out`. -/
def cycleToks (cyc : List Edge) : List String :=
  cyc.map (fun e => e.token_in) ++
    (match cyc.getLast? with
     | some e => [e.token_out]
     | none => [])

/-- The candidate "rotations" `toks[k:k+L] + toks[:k]` for `k < L`,
`L = len(toks) - 1` (graphfinder.py lines 119-123).  Note that `toks` has
`L + 1` elements, so only `k = 0` yields an `L`-element window; every `k ≥ 1`
yields an `(L+1)`-element list containing the duplicated start token. -/
def sigReps (toks : List String) : List (List String) :=
  let L := toks.length - 1
  (List.range L).map (fun k => (toks.drop k).take L ++ toks.take k)

/-- Python `<` on strings: lexicographic by code point. -/
def charListLtB : List Char → List Char → Bool
  | _, [] => false
  | [], _ :: _ => true
  | a :: as, b :: bs =>
    if a.val < b.val then true
    else if b.val < a.val then false
    else charListLtB as bs

/-- Python `<` on strings. -/
def strLtB (s t : String) : Bool := charListLtB s.data t.data

/-- Python `<` on tuples of strings: lexicographic, a strict proper initial
segment being smaller. -/
def strListLtB : List String → List String → Bool
  | _, [] => false
  | [], _ :: _ => true
  | a :: as, b :: bs =>
    if strLtB a b then true
    else if strLtB b a then false
    else strListLtB as bs

/-- Python `min` over a non-empty list: fold keeping the first minimum. -/
def pyMinList : List (List String) → List String
  | [] => []
  | r :: rs => rs.foldl (fun cur x => if strListLtB x cur then x else cur) r

/-- The signature `sig = min(reps)` of a cycle (graphfinder.py line 124). -/
def cycleSig (cyc : List Edge) : List String := pyMinList (sigReps (cycleToks cyc))

/-- The dedup loop of `find_simple_cycles` (graphfinder.py lines 113-127):
keep a cycle iff its signature has not been seen, in encounter order. -/
def dedupCycles (seen : List (List String)) : List (List Edge) → List (List Edge)
  | [] => []
  | c :: cs =>
    let s := cycleSig c
    if s ∈ seen then dedupCycles seen cs
    else c :: dedupCycles (s :: seen) cs

/-- `find_simple_cycles` (graphfinder.py lines 84-128): DFS from every node
(initial call depth 1, hence fuel `max_len`), then the signature dedup. -/
def find_simple_cycles (graph : Graph) (max_len : ℕ) : List (List Edge) :=
  let cycles := concatMap (fun n => dfs graph n max_len n [] [n]) (graph.map (fun kv => kv.1))
  dedupCycles [] cycles

/-- The loop body of `simulate_cycle_final_amount` (graphfinder.py
lines 149-156): at step `i` read `local_reserves[i]`, compute the output,
write the updated triple back to `local_reserves[i]`, and pass the output on.
The write is at the position of the edge just processed. -/
def simGo : List (ℚ × ℚ × ℚ) → ℕ → List Edge → ℚ → ℚ
  | _, _, [], amt => amt
  | locals, i, _ :: rest, amt =>
    let t := locals.getD i (0, 0, 0)
    let out := get_amount_out amt t.1 t.2.1 t.2.2
    let locals' := locals.set i (t.1 + amt, t.2.1 - out, t.2.2)
    simGo locals' (i + 1) rest out

/-- `simulate_cycle_final_amount` (graphfinder.py lines 132-159): build the
`local_reserves` list from the cycle's edges, then run the indexed loop. -/
def simulate_cycle_final_amount (cycle : List Edge) (amount_in : ℚ) : ℚ :=
  simGo (cycle.map (fun e => (e.reserve_in, e.reserve_out, e.fee))) 0 cycle amount_in

/-- `profit_for_cycle` (graphfinder.py lines 161-166). -/
def profit_for_cycle (cycle : List Edge) (x : ℚ) : ℚ :=
  simulate_cycle_final_amount cycle x - x

/-- The simple snapshot fold: apply `get_amount_out` to each edge using that
edge's original reserves, chaining only the amount.  Stated from the claim
wording as the refinement target for `simulate_cycle_final_amount`. -/
def simulateSnapshotFold (cycle : List Edge) (amount_in : ℚ) : ℚ :=
  cycle.foldl (fun amt e => get_amount_out amt e.reserve_in e.reserve_out e.fee) amount_in

/-- `phi = Decimal((1 + 5 ** 0.5) / 2)` (graphfinder.py line 188): the exact
value of the IEEE double `(1 + 5 ** 0.5) / 2 = 910872158600853 * 2⁻⁴⁹`. -/
def phi : ℚ := 910872158600853 / 562949953421312

/-- `invphi = 1 / phi` (graphfinder.py line 189), `Decimal` division modelled
as exact. -/
def invphi : ℚ := 1 / phi

/-- The `while` loop of `maximize_profit_for_cycle` (graphfinder.py
lines 198-212) on state `(a, b, c, d, fc, fd)`.  Fuel is the remaining
iteration budget `max_iter - iter_count`; the loop exits when the budget is
exhausted or `b - a ≤ tol`, returning the bracket `(a, b, c, d)`. -/
def goldenLoop (cycle : List Edge) (tol : ℚ) :
    ℕ → ℚ × ℚ × ℚ × ℚ × ℚ × ℚ → ℚ × ℚ × ℚ × ℚ
  | 0, (a, b, c, d, _, _) => (a, b, c, d)
  | fuel + 1, (a, b, c, d, fc, fd) =>
    if b - a > tol then
      if fc > fd then
        let b' := d
        let d' := c
        let fd' := fc
        let c' := b' - (b' - a) * invphi
        goldenLoop cycle tol fuel (a, b', c', d', profit_for_cycle cycle c', fd')
      else
        let a' := c
        let c' := d
        let fc' := fd
        let d' := a' + (b - a') * invphi
        goldenLoop cycle tol fuel (a', b, c', d', fc', profit_for_cycle cycle d')
    else (a, b, c, d)

/-- Initial bracket state of the golden-section search (graphfinder.py
lines 190-196). -/
def loopInit (cycle : List Edge) (x_min x_max : ℚ) : ℚ × ℚ × ℚ × ℚ × ℚ × ℚ :=
  let a := x_min
  let b := x_max
  let c := b - (b - a) * invphi
  let d := a + (b - a) * invphi
  (a, b, c, d, profit_for_cycle cycle c, profit_for_cycle cycle d)

/-- The bracket `(a, b, c, d)` held when the golden-section loop exits. -/
def loopExit (cycle : List Edge) (x_min x_max tol : ℚ) (max_iter : ℕ) : ℚ × ℚ × ℚ × ℚ :=
  goldenLoop cycle tol max_iter (loopInit cycle x_min x_max)

/-- The four candidate points `[a, b, c, d]` (graphfinder.py line 215). -/
def fourPoints (q : ℚ × ℚ × ℚ × ℚ) : List ℚ :=
  [q.1, q.2.1, q.2.2.1, q.2.2.2]

/-- Python `max(xs, key)` folded from a seed: replace the current best only on
a strictly greater key, so the first maximum is kept. -/
def pyMaxBy (key : ℚ → ℚ) (x0 : ℚ) (xs : List ℚ) : ℚ :=
  xs.foldl (fun cur y => if key cur < key y then y else cur) x0

/-- Python `max(candidates, key=...)` on a non-empty list (graphfinder.py
line 216).  The `[]` case is Python's `ValueError`; it is never reached. -/
def pyMax (key : ℚ → ℚ) : List ℚ → ℚ
  | [] => 0
  | x :: xs => pyMaxBy key x xs

/-- `2^e` over ℚ for an integer exponent. -/
def pow2 (e : ℤ) : ℚ :=
  if 0 ≤ e then ((2 : ℚ) ^ e.toNat) else 1 / ((2 : ℚ) ^ (-e).toNat)

/-- Raise the exponent while `2^(e+1) ≤ q` (fuel-bounded). -/
def fl2Up : ℕ → ℚ → ℤ → ℤ
  | 0, _, e => e
  | fuel + 1, q, e => if pow2 (e + 1) ≤ q then fl2Up fuel q (e + 1) else e

/-- Lower the exponent while `q < 2^e` (fuel-bounded). -/
def fl2Down : ℕ → ℚ → ℤ → ℤ
  | 0, _, e => e
  | fuel + 1, q, e => if q < pow2 e then fl2Down fuel q (e - 1) else e

/-- For positive `q` (fuel 1100 covers far beyond the IEEE-double exponent
range): the unique `e` with `2^e ≤ q < 2^(e+1)`. -/
def floorLog2Pos (q : ℚ) : ℤ := fl2Down 1100 q (fl2Up 1100 q 0)

/-- Round to the nearest integer, ties to even. -/
def roundHalfEven (q : ℚ) : ℤ :=
  let f := Int.fdiv q.num (q.den : ℤ)
  let r := q - (f : ℚ)
  if r < 1 / 2 then f
  else if 1 / 2 < r then f + 1
  else if f % 2 = 0 then f else f + 1

/-- The source's `float(...)` coercion (graphfinder.py line 216 uses
`float(profit_for_cycle(cycle, xx))` as the `max` key): CPython converts the
exact `Decimal` to the nearest IEEE double, ties to even.  Embedded as the
exact rational value of that double: round the 53-bit-scaled magnitude half
to even and scale back.  Overflow and subnormal underflow are not modelled;
every value compared under this key in this file lies well inside the
double's normal range. -/
def pyFloat (q : ℚ) : ℚ :=
  if q = 0 then 0
  else
    let a := if q < 0 then -q else q
    let e := floorLog2Pos a
    let m := roundHalfEven (a * pow2 (52 - e))
    let app := (m : ℚ) * pow2 (e - 52)
    if q < 0 then -app else app

/-- `maximize_profit_for_cycle` (graphfinder.py lines 170-218).
`cycle[0]["reserve_in"]` raises on an empty cycle, hence `Option`; the
defaults used by the orchestrator are `x_min = Decimal('1e-12')`,
`tol = 1e-6`, `max_iter = 80`.  The missing-`x_max` default is
`max(Decimal('1e-6'), first_res_in * Decimal('0.2'))`.  The final `max` over
the four bracket points uses the FLOAT-ROUNDED profit as its key
(`key=lambda xx: float(profit_for_cycle(cycle, xx))`, modelled by `pyFloat`),
keeping the first point on rounded ties, while the returned profit is the
exact `profit_for_cycle` at the chosen point. -/
def maximize_profit_for_cycle : List Edge → ℚ → Option ℚ → ℚ → ℕ → Option (ℚ × ℚ)
  | [], _, _, _, _ => none
  | e0 :: rest, x_min, x_maxOpt, tol, max_iter =>
    let first_res_in := e0.reserve_in
    let x_max :=
      match x_maxOpt with
      | some v => v
      | none => max (1 / 1000000 : ℚ) (first_res_in * (2 / 10))
    if x_max ≤ x_min then some (0, 0)
    else
      let q := loopExit (e0 :: rest) x_min x_max tol max_iter
      let best_x :=
        pyMax (fun xx => pyFloat (profit_for_cycle (e0 :: rest) xx)) (fourPoints q)
      some (best_x, profit_for_cycle (e0 :: rest) best_x)

/-- `x_min` default `Decimal('1e-12')` (graphfinder.py line 170). -/
def X_MIN_DEFAULT : ℚ := 1 / 10 ^ 12

/-- `tol` default `1e-6` (graphfinder.py line 170). -/
def TOL_DEFAULT : ℚ := 1 / 10 ^ 6

/-- One result record of `find_and_optimize_cycles` (graphfinder.py
lines 244-250). -/
structure Opportunity where
  cycle_index : ℕ
  token_path : List String
  pair_ids : List String
  best_x : ℚ
  best_profit : ℚ
deriving DecidableEq, Repr

/-- One iteration of the orchestrator's per-cycle loop (graphfinder.py
lines 234-250): optimize with the default parameters and emit a record only
when the profit strictly exceeds the threshold.  `none` from the optimizer
(empty cycle) cannot occur for enumerated cycles and emits nothing. -/
def opportunityOfCycle (min_profit_threshold : ℚ) (ic : ℕ × List Edge) : List Opportunity :=
  match maximize_profit_for_cycle ic.2 X_MIN_DEFAULT none TOL_DEFAULT 80 with
  | none => []
  | some (x_best, profit_best) =>
    if min_profit_threshold < profit_best then
      [⟨ic.1,
        (match ic.2 with
         | [] => []
         | e :: _ => [e.token_in]) ++ ic.2.map (fun e => e.token_out),
        ic.2.map (fun e => e.pair_id), x_best, profit_best⟩]
    else []

/-- `find_and_optimize_cycles` (graphfinder.py lines 222-253): build the
graph once, enumerate cycles once, optimize each, keep those whose best
profit strictly exceeds `min_profit_threshold`, in enumeration order. -/
def find_and_optimize_cycles (pools : List Pool) (max_cycle_len : ℕ)
    (min_profit_threshold : ℚ) : List Opportunity :=
  let graph := build_graph_from_pools pools
  let cycles := find_simple_cycles graph max_cycle_len
  concatMap (opportunityOfCycle min_profit_threshold) cycles.enum

/-- The per-edge output formula exactly as the claim states it:
`amountInWithFee * reserveOut / (reserveIn + amountInWithFee)` with
`amountInWithFee = amountIn * (1 - fee)`, and 0 on any non-positive input. -/
def specAmountOut (amountIn reserveIn reserveOut fee : ℚ) : ℚ :=
  if amountIn ≤ 0 ∨ reserveIn ≤ 0 ∨ reserveOut ≤ 0 then 0
  else
    let amountInWithFee := amountIn * (1 - fee)
    amountInWithFee * reserveOut / (reserveIn + amountInWithFee)

/-- The triangle of the spec's worked example: P1(A,B,1000/2000), P2(B,C,1500/3000),
P3(C,A,500/250), all with fee 0.003. -/
def trianglePools : List Pool :=
  [⟨"P1", "A", "B", 1000, 2000, 3 / 1000⟩,
   ⟨"P2", "B", "C", 1500, 3000, 3 / 1000⟩,
   ⟨"P3", "C", "A", 500, 250, 3 / 1000⟩]

/-- The cycles `find_simple_cycles` returns on the triangle with `max_len = 3`. -/
def triangleCycles : List (List Edge) :=
  find_simple_cycles (build_graph_from_pools trianglePools) 3

/-- The `token_in` sequence of a cycle. -/
def tokSeq (cyc : List Edge) : List String := cyc.map (fun e => e.token_in)

/-- `ys` is a rotation of `xs` (as cyclic token sequences). -/
def isRotationB (xs ys : List String) : Bool :=
  (List.range xs.length).any (fun k => xs.rotate k == ys)

/-- A pool whose reserve0 is zero, with a positive partner reserve. -/
def zeroPool : Pool := ⟨"Z0", "A", "B", 0, 100, 3 / 1000⟩

/-- The single-pool round trip A→B then B→A over the same pool
(1000/2000, fee 0.003), built from the same edge constructors as
`build_graph_from_pools`. -/
def rtPool : Pool := ⟨"P1", "A", "B", 1000, 2000, 3 / 1000⟩

/-- The 2-edge cycle from `rtPool` in both directions. -/
def rtCycle : List Edge := [poolFwdEdge rtPool, poolBwdEdge rtPool]

theorem getD_set_ne {α : Type _} (l : List α) (i j : ℕ) (a d : α) (h : i ≠ j) :
    (l.set i a).getD j d = l.getD j d := by
  simp [List.getD, List.getElem?_set_ne h]

/-- The indexed simulation loop never reads an index it has written: provided
`locals` agrees with the snapshot triples of `cycle` from position `i` on,
it computes the plain snapshot fold. -/
theorem simGo_eq_snapshot (cycle : List Edge) :
    ∀ (locals : List (ℚ × ℚ × ℚ)) (i : ℕ) (amt : ℚ),
      (∀ (k : ℕ) (h : k < cycle.length),
        locals.getD (i + k) (0, 0, 0) =
          ((cycle.get ⟨k, h⟩).reserve_in, (cycle.get ⟨k, h⟩).reserve_out,
            (cycle.get ⟨k, h⟩).fee)) →
      simGo locals i cycle amt = simulateSnapshotFold cycle amt := by
  induction cycle with
  | nil => intro locals i amt _; rfl
  | cons e rest ih =>
    intro locals i amt hinv
    have h0 : locals.getD i (0, 0, 0) = (e.reserve_in, e.reserve_out, e.fee) := by
      have h := hinv 0 (by simp)
      simpa using h
    have hstep : simGo locals i (e :: rest) amt =
        simGo (locals.set i
            (e.reserve_in + amt,
             e.reserve_out - get_amount_out amt e.reserve_in e.reserve_out e.fee,
             e.fee))
          (i + 1) rest (get_amount_out amt e.reserve_in e.reserve_out e.fee) := by
      simp only [simGo, h0]
    rw [hstep]
    have hfold : simulateSnapshotFold (e :: rest) amt =
        simulateSnapshotFold rest (get_amount_out amt e.reserve_in e.reserve_out e.fee) := rfl
    rw [hfold]
    apply ih
    intro k h
    have hne : i ≠ i + 1 + k := by omega
    rw [getD_set_ne _ _ _ _ _ hne]
    have h2 := hinv (k + 1) (by simpa using Nat.succ_lt_succ h)
    rw [show i + (k + 1) = i + 1 + k by omega] at h2
    simpa using h2

/-- `simulate_cycle_final_amount` equals the snapshot fold, for every cycle
and every input amount. -/
theorem simulate_eq_snapshot (cycle : List Edge) (x : ℚ) :
    simulate_cycle_final_amount cycle x = simulateSnapshotFold cycle x := by
  apply simGo_eq_snapshot
  intro k h
  simp [List.getD, List.getElem?_map, List.getElem?_eq_getElem h,
    List.get_eq_getElem]

/-- C1: for every amount_in, reserve_in, reserve_out and fee in [0,1),
`get_amount_out` returns 0 whenever `amount_in ≤ 0` or `reserve_in ≤ 0` or
`reserve_out ≤ 0`, and otherwise returns exactly
`amountInWithFee * reserveOut / (reserveIn + amountInWithFee)` with
`amountInWithFee = amountIn * (1 - fee)`, in exact (rational-modelled
decimal) arithmetic. -/
theorem C1_get_amount_out_formula (a r R f : ℚ) (hf0 : 0 ≤ f) (hf1 : f < 1) :
    get_amount_out a r R f = specAmountOut a r R f := rfl

theorem C1_get_amount_out_formula_witness :
    (0 : ℚ) ≤ 3 / 1000 ∧ (3 / 1000 : ℚ) < 1 ∧
      get_amount_out 2 5 7 (3 / 1000) = specAmountOut 2 5 7 (3 / 1000) :=
  ⟨by norm_num, by norm_num,
    C1_get_amount_out_formula 2 5 7 (3 / 1000) (by norm_num) (by norm_num)⟩

/-- C5: `simulate_cycle_final_amount` returns exactly the same final amount as
the simple fold applying `get_amount_out` to each edge with that edge's
original snapshot reserves: the per-edge writes into `local_reserves` are
indexed by edge position and never read by a later edge. -/
theorem C5_simulate_is_snapshot_fold (cycle : List Edge) (x : ℚ) :
    simulate_cycle_final_amount cycle x = simulateSnapshotFold cycle x :=
  simulate_eq_snapshot cycle x

section ConcreteEvaluation

attribute [local semireducible] Rat.mul Rat.inv Rat.add Rat.sub

/-- C4 (divergence from the claim): on the single-pool round trip, the second
leg is computed with the pool's untouched snapshot reserves (2000, 1000),
not with the reserves updated by the first leg (2000 - out₁, 1000 + 100):
the `local_reserves` updates never reach a later edge, so later edges do NOT
reflect the slippage of earlier legs. -/
theorem C4_reserve_updates_never_read :
    simulate_cycle_final_amount rtCycle 100 =
      get_amount_out (get_amount_out 100 1000 2000 (3 / 1000)) 2000 1000 (3 / 1000) ∧
    simulate_cycle_final_amount rtCycle 100 ≠
      get_amount_out (get_amount_out 100 1000 2000 (3 / 1000))
        (2000 - get_amount_out 100 1000 2000 (3 / 1000)) (1000 + 100) (3 / 1000) := by
  constructor
  · decide
  · decide

/-- C2 (divergence from the claim): on the 3-pool triangle with `max_len = 3`,
`find_simple_cycles` keeps all 12 raw cycles — the signature computation gives
different signatures to rotations of the same closed token sequence, so no
rotational duplicate is ever merged; in particular two distinct rotations of
the same triangle (A→B→C→A and B→C→A→B) both appear in the output. -/
theorem C2_rotations_not_merged :
    triangleCycles.length = 12 ∧
    (∃ c1 ∈ triangleCycles, ∃ c2 ∈ triangleCycles,
      c1 ≠ c2 ∧ isRotationB (tokSeq c1) (tokSeq c2) = true ∧
      cycleSig c1 ≠ cycleSig c2) := by
  constructor
  · decide
  · decide

/-- C3 counterexample: a pool with `reserve0 = 0` is NOT rejected at
graph-build time: both its edges are added, and `find_simple_cycles` emits a
cycle that uses it. -/
theorem C3_counterexample_zero_pool_kept :
    lookupEdges (build_graph_from_pools [zeroPool]) "A" = [poolFwdEdge zeroPool] ∧
    lookupEdges (build_graph_from_pools [zeroPool]) "B" = [poolBwdEdge zeroPool] ∧
    (∃ cyc ∈ find_simple_cycles (build_graph_from_pools [zeroPool]) 2,
      "Z0" ∈ cyc.map (fun e => e.pair_id)) := by
  refine ⟨by decide, by decide, ?_⟩
  decide

end ConcreteEvaluation

/-- Total number of edges stored in a graph. -/
def edgeCount (g : Graph) : ℕ := (g.map (fun kv => kv.2.length)).sum

theorem edgeCount_addEdge (g : Graph) (t : String) (e : Edge) :
    edgeCount (addEdge g t e) = edgeCount g + 1 := by
  induction g with
  | nil => simp [addEdge, edgeCount]
  | cons kv rest ih =>
    obtain ⟨k, es⟩ := kv
    by_cases h : k = t
    · simp [addEdge, h, edgeCount]
      omega
    · simp [addEdge, h, edgeCount] at ih ⊢
      omega

/-- `build_graph_from_pools` never drops a pool: every pool contributes
exactly its two directed edges, whatever its reserves and fee. -/
theorem build_graph_edgeCount (pools : List Pool) :
    edgeCount (build_graph_from_pools pools) = 2 * pools.length := by
  suffices h : ∀ g : Graph, edgeCount (pools.foldl
      (fun g p => addEdge (addEdge g p.token0 (poolFwdEdge p)) p.token1 (poolBwdEdge p)) g) =
      edgeCount g + 2 * pools.length by
    simpa [build_graph_from_pools, edgeCount] using h []
  induction pools with
  | nil => intro g; simp
  | cons p rest ih =>
    intro g
    simp only [List.foldl_cons, ih, edgeCount_addEdge, List.length_cons]
    ring

section NoValidation

attribute [local semireducible] Rat.mul Rat.inv Rat.add Rat.sub

/-- C3 amended: `build_graph_from_pools` performs no validation — every pool
contributes its two directed edges regardless of reserve signs or fee, and a
cycle using a zero-reserve pool is emitted by `find_simple_cycles` (its edges
merely yield zero output during simulation). -/
theorem C3_no_validation_amended :
    (∀ pools : List Pool, edgeCount (build_graph_from_pools pools) = 2 * pools.length) ∧
    (∃ cyc ∈ find_simple_cycles (build_graph_from_pools [zeroPool]) 2,
      "Z0" ∈ cyc.map (fun e => e.pair_id)) :=
  ⟨build_graph_edgeCount, by decide⟩

end NoValidation

/-- `get_amount_out` on strictly positive inputs: the guard is not taken and
the value is the closed formula. -/
theorem get_amount_out_pos_eq (a r R f : ℚ) (ha : 0 < a) (hr : 0 < r) (hR : 0 < R) :
    get_amount_out a r R f = a * (1 - f) * R / (r + a * (1 - f)) := by
  have h : ¬(a ≤ 0 ∨ r ≤ 0 ∨ R ≤ 0) := by push_neg; exact ⟨ha, hr, hR⟩
  unfold get_amount_out
  rw [if_neg h]

section SupCounterexample

attribute [local semireducible] Rat.mul Rat.inv Rat.add Rat.sub

/-- C6 counterexample: `reserveOut * (1 - fee)` is NOT an upper bound of
`x ↦ get_amount_out x reserveIn reserveOut fee`: with reserves 1, 1 and
fee = 1/2, the output at x = 10 is 10/12 > 1 * (1 - 1/2). -/
theorem C6_counterexample_sup_exceeded :
    (0 : ℚ) < 10 ∧ (0 : ℚ) ≤ 1 / 2 ∧ (1 / 2 : ℚ) < 1 ∧
      (1 : ℚ) * (1 - 1 / 2) < get_amount_out 10 1 1 (1 / 2) := by
  refine ⟨by norm_num, by norm_num, by norm_num, ?_⟩
  decide

end SupCounterexample

/-- C6 amended: for fixed `reserve_in > 0`, `reserve_out > 0` and fee in
[0,1), `x ↦ get_amount_out x reserve_in reserve_out fee` is strictly
increasing for `x > 0` and approaches `reserveOut` (not
`reserveOut * (1 - fee)`) as `x → ∞`: `reserveOut` is its least upper
bound. -/
theorem C6_strict_mono_sup_reserveOut (r R f : ℚ) (hr : 0 < r) (hR : 0 < R)
    (hf0 : 0 ≤ f) (hf1 : f < 1) :
    (∀ x y : ℚ, 0 < x → x < y → get_amount_out x r R f < get_amount_out y r R f) ∧
    (∀ x : ℚ, 0 < x → get_amount_out x r R f < R) ∧
    (∀ b : ℚ, b < R → ∃ x : ℚ, 0 < x ∧ b < get_amount_out x r R f) := by
  have hm : (0 : ℚ) < 1 - f := by linarith
  refine ⟨?_, ?_, ?_⟩
  · intro x y hx hxy
    have hy : 0 < y := lt_trans hx hxy
    rw [get_amount_out_pos_eq x r R f hx hr hR, get_amount_out_pos_eq y r R f hy hr hR]
    have hdx : 0 < r + x * (1 - f) := by nlinarith
    have hdy : 0 < r + y * (1 - f) := by nlinarith
    rw [div_lt_div_iff hdx hdy]
    nlinarith [mul_pos (mul_pos (mul_pos (sub_pos.mpr hxy) hm) hR) hr]
  · intro x hx
    rw [get_amount_out_pos_eq x r R f hx hr hR]
    have hd : 0 < r + x * (1 - f) := by nlinarith
    rw [div_lt_iff hd]
    nlinarith [mul_pos hR hr, mul_pos (mul_pos hx hm) hR]
  · intro b hb
    rcases le_or_lt b 0 with hb0 | hb0
    · refine ⟨1, one_pos, ?_⟩
      rw [get_amount_out_pos_eq 1 r R f one_pos hr hR]
      have hd : 0 < r + 1 * (1 - f) := by nlinarith
      have hpos : 0 < 1 * (1 - f) * R / (r + 1 * (1 - f)) := by positivity
      linarith
    · have hRb : 0 < R - b := by linarith
      have hDpos : 0 < (1 - f) * (R - b) := mul_pos hm hRb
      set x := b * r / ((1 - f) * (R - b)) + 1 with hxdef
      have hq : 0 ≤ b * r / ((1 - f) * (R - b)) := by positivity
      have hxpos : 0 < x := by rw [hxdef]; linarith
      refine ⟨x, hxpos, ?_⟩
      rw [get_amount_out_pos_eq x r R f hxpos hr hR]
      have hd : 0 < r + x * (1 - f) := by nlinarith
      rw [lt_div_iff hd]
      have hkey : b * r < x * ((1 - f) * (R - b)) := by
        have hc : x * ((1 - f) * (R - b)) =
            b * r / ((1 - f) * (R - b)) * ((1 - f) * (R - b)) + (1 - f) * (R - b) := by
          rw [hxdef]; ring
        rw [hc, div_mul_cancel₀ _ (ne_of_gt hDpos)]
        linarith
      nlinarith [hkey]

theorem C6_strict_mono_sup_reserveOut_witness :
    (0 : ℚ) < 5 ∧ (0 : ℚ) < 7 ∧ (0 : ℚ) ≤ 3 / 1000 ∧ (3 / 1000 : ℚ) < 1 ∧
      ((∀ x y : ℚ, 0 < x → x < y →
          get_amount_out x 5 7 (3 / 1000) < get_amount_out y 5 7 (3 / 1000)) ∧
        (∀ x : ℚ, 0 < x → get_amount_out x 5 7 (3 / 1000) < 7) ∧
        (∀ b : ℚ, b < 7 → ∃ x : ℚ, 0 < x ∧ b < get_amount_out x 5 7 (3 / 1000))) :=
  ⟨by norm_num, by norm_num, by norm_num, by norm_num,
    C6_strict_mono_sup_reserveOut 5 7 (3 / 1000)
      (by norm_num) (by norm_num) (by norm_num) (by norm_num)⟩

/-- C7: for a pool with positive reserves and fee in (0,1), the 2-edge cycle
from that same pool in both directions has `profit_for_cycle ≤ 0` for every
positive trade size: the fee (and slippage) reduce round-trip value. -/
theorem C7_single_pool_no_free_lunch (p : Pool) (x : ℚ)
    (h0 : 0 < p.reserve0) (h1 : 0 < p.reserve1)
    (hf0 : 0 < p.fee) (hf1 : p.fee < 1) (hx : 0 < x) :
    profit_for_cycle [poolFwdEdge p, poolBwdEdge p] x ≤ 0 := by
  have hm : (0 : ℚ) < 1 - p.fee := by linarith
  have hm1 : 1 - p.fee ≤ 1 := by linarith
  rw [profit_for_cycle, simulate_eq_snapshot]
  have hfold : simulateSnapshotFold [poolFwdEdge p, poolBwdEdge p] x =
      get_amount_out (get_amount_out x p.reserve0 p.reserve1 p.fee)
        p.reserve1 p.reserve0 p.fee := rfl
  rw [hfold]
  have hD : 0 < p.reserve0 + x * (1 - p.fee) := by nlinarith
  have hout1eq : get_amount_out x p.reserve0 p.reserve1 p.fee =
      x * (1 - p.fee) * p.reserve1 / (p.reserve0 + x * (1 - p.fee)) :=
    get_amount_out_pos_eq x p.reserve0 p.reserve1 p.fee hx h0 h1
  set o1 := get_amount_out x p.reserve0 p.reserve1 p.fee with ho1def
  have ho1pos : 0 < o1 := by
    rw [hout1eq]
    positivity
  have hout2eq : get_amount_out o1 p.reserve1 p.reserve0 p.fee =
      o1 * (1 - p.fee) * p.reserve0 / (p.reserve1 + o1 * (1 - p.fee)) :=
    get_amount_out_pos_eq o1 p.reserve1 p.reserve0 p.fee ho1pos h1 h0
  rw [hout2eq]
  have hD2 : 0 < p.reserve1 + o1 * (1 - p.fee) := by nlinarith
  rw [sub_nonpos, div_le_iff hD2]
  have hkey : o1 * (p.reserve0 + x * (1 - p.fee)) = x * (1 - p.fee) * p.reserve1 := by
    rw [hout1eq, div_mul_cancel₀ _ (ne_of_gt hD)]
  nlinarith [hkey, mul_pos hx h1, mul_pos (mul_pos ho1pos hx) hm,
    mul_nonneg (mul_nonneg hx.le h1.le)
      (mul_nonneg (sub_nonneg.mpr hm1) (by linarith : (0 : ℚ) ≤ 1 + (1 - p.fee))),
    mul_nonneg (mul_nonneg ho1pos.le hx.le) (mul_nonneg hm.le hm.le)]

theorem C7_single_pool_no_free_lunch_witness :
    (0 : ℚ) < 1000 ∧ (0 : ℚ) < 2000 ∧ (0 : ℚ) < 3 / 1000 ∧ (3 / 1000 : ℚ) < 1 ∧
      (0 : ℚ) < 100 ∧ profit_for_cycle [poolFwdEdge rtPool, poolBwdEdge rtPool] 100 ≤ 0 :=
  ⟨by norm_num, by norm_num, by norm_num, by norm_num, by norm_num,
    C7_single_pool_no_free_lunch rtPool 100
      (by norm_num [rtPool]) (by norm_num [rtPool]) (by norm_num [rtPool])
      (by norm_num [rtPool]) (by norm_num)⟩

/-- The result of Python `max(x0 :: xs, key=...)` is an element of the list. -/
theorem pyMaxBy_mem (key : ℚ → ℚ) : ∀ (xs : List ℚ) (x0 : ℚ), pyMaxBy key x0 xs ∈ x0 :: xs := by
  intro xs
  induction xs with
  | nil => intro x0; simp [pyMaxBy]
  | cons y ys ih =>
    intro x0
    have hunfold : pyMaxBy key x0 (y :: ys) =
        pyMaxBy key (if key x0 < key y then y else x0) ys := rfl
    rw [hunfold]
    have h := ih (if key x0 < key y then y else x0)
    rw [List.mem_cons] at h
    rcases h with h | h
    · rw [h]
      split_ifs
      · simp
      · simp
    · simp [h]

/-- The result of Python `max(x0 :: xs, key=...)` has a maximal key. -/
theorem pyMaxBy_le (key : ℚ → ℚ) : ∀ (xs : List ℚ) (x0 y : ℚ), y ∈ x0 :: xs →
    key y ≤ key (pyMaxBy key x0 xs) := by
  intro xs
  induction xs with
  | nil =>
    intro x0 y hy
    simp only [List.mem_singleton] at hy
    simp [pyMaxBy, hy]
  | cons z zs ih =>
    intro x0 y hy
    have hunfold : pyMaxBy key x0 (z :: zs) =
        pyMaxBy key (if key x0 < key z then z else x0) zs := rfl
    rw [hunfold]
    have hx0 : key x0 ≤ key (if key x0 < key z then z else x0) := by
      split_ifs with h
      · exact le_of_lt h
      · exact le_refl _
    have hz : key z ≤ key (if key x0 < key z then z else x0) := by
      split_ifs with h
      · exact le_refl _
      · exact le_of_not_lt h
    have htop := ih (if key x0 < key z then z else x0)
      (if key x0 < key z then z else x0) (List.mem_cons_self _ _)
    rw [List.mem_cons, List.mem_cons] at hy
    rcases hy with hy | hy | hy
    · exact le_trans (hy ▸ hx0) htop
    · exact le_trans (hy ▸ hz) htop
    · exact ih _ y (List.mem_cons_of_mem _ hy)

/-- The amended C8 property at given inputs: the optimizer's returned point is
one of the four bracket points held at loop exit and attains the maximum of
the FLOAT-ROUNDED profit `pyFloat ∘ profit_for_cycle` over them (Python `max`
keeps the first point on rounded ties), and the returned profit is the exact
`profit_for_cycle` of that point. -/
def maximizeBestOfFour (cycle : List Edge) (x_min x_max tol : ℚ) (max_iter : ℕ) : Prop :=
  ∃ best_x,
    maximize_profit_for_cycle cycle x_min (some x_max) tol max_iter =
      some (best_x, profit_for_cycle cycle best_x) ∧
    best_x ∈ fourPoints (loopExit cycle x_min x_max tol max_iter) ∧
    ∀ y ∈ fourPoints (loopExit cycle x_min x_max tol max_iter),
      pyFloat (profit_for_cycle cycle y) ≤ pyFloat (profit_for_cycle cycle best_x)

/-- On a non-empty cycle with a proper bracket, `maximize_profit_for_cycle`
computes the loop exit state and takes Python `max` over its four points
under the float-rounded key. -/
theorem maximize_eq_pyMax (e0 : Edge) (rest : List Edge) (x_min x_max tol : ℚ)
    (max_iter : ℕ) (hlt : x_min < x_max) :
    maximize_profit_for_cycle (e0 :: rest) x_min (some x_max) tol max_iter =
      some (pyMax (fun xx => pyFloat (profit_for_cycle (e0 :: rest) xx))
          (fourPoints (loopExit (e0 :: rest) x_min x_max tol max_iter)),
        profit_for_cycle (e0 :: rest)
          (pyMax (fun xx => pyFloat (profit_for_cycle (e0 :: rest) xx))
            (fourPoints (loopExit (e0 :: rest) x_min x_max tol max_iter)))) := by
  simp only [maximize_profit_for_cycle]
  rw [if_neg (not_le.mpr hlt)]

/-- The A→B→C→A cycle over the triangle pools (profitable, so its profit is
strictly increasing on a small bracket left of the optimum). -/
def cexCycle : List Edge :=
  [poolFwdEdge ⟨"P1", "A", "B", 1000, 2000, 3 / 1000⟩,
   poolFwdEdge ⟨"P2", "B", "C", 1500, 3000, 3 / 1000⟩,
   poolFwdEdge ⟨"P3", "C", "A", 500, 250, 3 / 1000⟩]

/-- A bracket of width `2⁻⁶⁰` at 1: the exact profits at its four golden
points differ (the profit is strictly increasing there) by less than one unit
in the last place of the common double, so all four round to the same
`float`. -/
def cexB : ℚ := 1 + 1 / 2 ^ 60

section MaximizeBestOfFour

attribute [local semireducible] Rat.mul Rat.inv Rat.add Rat.sub

set_option maxRecDepth 100000 in
set_option maxHeartbeats 4000000 in
/-- C8 counterexample: with the bracket `[1, 1 + 2⁻⁶⁰]` (narrower than `tol`,
so the loop exits at once and the four candidates are the initial bracket
points) on the profitable triangle cycle, all four exact profits round to the
same double, so the source's `max` under the `float(...)` key keeps the FIRST
point `a = 1` — yet the exact profit at the candidate `b = 1 + 2⁻⁶⁰` is
strictly larger: the returned point does NOT attain the maximum of the exact
`profit_for_cycle` over the four points. -/
theorem C8_counterexample_exact_max_not_attained :
    maximize_profit_for_cycle cexCycle 1 (some cexB) (1 / 10 ^ 6) 80 =
      some (1, profit_for_cycle cexCycle 1) ∧
    cexB ∈ fourPoints (loopExit cexCycle 1 cexB (1 / 10 ^ 6) 80) ∧
    profit_for_cycle cexCycle 1 < profit_for_cycle cexCycle cexB := by
  refine ⟨by decide, by decide, by decide⟩

set_option maxRecDepth 100000 in
set_option maxHeartbeats 4000000 in
/-- C8 amended: for every non-empty cycle and bracket with `x_min < x_max`,
`maximize_profit_for_cycle` returns a pair `(best_x, profit_best)` where
`best_x` is one of the four bracket points `{a, b, c, d}` held at loop exit
and attains the maximum of the float-rounded profit
`float(profit_for_cycle(cycle, ·))` over them (first point kept on rounded
ties), `profit_best` is exactly `profit_for_cycle cycle best_x`, and the
returned profit may be ≤ 0. -/
theorem C8_returns_float_best_of_four (cycle : List Edge) (x_min x_max tol : ℚ)
    (max_iter : ℕ) (hne : cycle ≠ []) (hlt : x_min < x_max) :
    maximizeBestOfFour cycle x_min x_max tol max_iter ∧
    (∃ (cyc : List Edge) (xm xM t : ℚ) (n : ℕ) (res : ℚ × ℚ),
      maximize_profit_for_cycle cyc xm (some xM) t n = some res ∧ res.2 ≤ 0) := by
  constructor
  · obtain ⟨e0, rest, rfl⟩ := List.exists_cons_of_ne_nil hne
    refine ⟨pyMax (fun xx => pyFloat (profit_for_cycle (e0 :: rest) xx))
        (fourPoints (loopExit (e0 :: rest) x_min x_max tol max_iter)),
      maximize_eq_pyMax e0 rest x_min x_max tol max_iter hlt, ?_, ?_⟩
    · exact pyMaxBy_mem (fun xx => pyFloat (profit_for_cycle (e0 :: rest) xx))
        [(loopExit (e0 :: rest) x_min x_max tol max_iter).2.1,
         (loopExit (e0 :: rest) x_min x_max tol max_iter).2.2.1,
         (loopExit (e0 :: rest) x_min x_max tol max_iter).2.2.2]
        (loopExit (e0 :: rest) x_min x_max tol max_iter).1
    · intro y hy
      exact pyMaxBy_le (fun xx => pyFloat (profit_for_cycle (e0 :: rest) xx))
        [(loopExit (e0 :: rest) x_min x_max tol max_iter).2.1,
         (loopExit (e0 :: rest) x_min x_max tol max_iter).2.2.1,
         (loopExit (e0 :: rest) x_min x_max tol max_iter).2.2.2]
        (loopExit (e0 :: rest) x_min x_max tol max_iter).1 y hy
  · exact ⟨rtCycle, X_MIN_DEFAULT, 200, TOL_DEFAULT, 0, _, rfl, by decide⟩

theorem C8_returns_float_best_of_four_witness :
    rtCycle ≠ [] ∧ X_MIN_DEFAULT < 200 ∧
      (maximizeBestOfFour rtCycle X_MIN_DEFAULT 200 TOL_DEFAULT 80 ∧
        (∃ (cyc : List Edge) (xm xM t : ℚ) (n : ℕ) (res : ℚ × ℚ),
          maximize_profit_for_cycle cyc xm (some xM) t n = some res ∧ res.2 ≤ 0)) :=
  ⟨by decide, by decide,
    C8_returns_float_best_of_four rtCycle X_MIN_DEFAULT 200 TOL_DEFAULT 80
      (by decide) (by decide)⟩

end MaximizeBestOfFour

/-- C9: on a non-empty cycle, the missing-`x_max` default is
`max(1e-6, first edge reserve_in * 0.2)`, and whenever the effective
`x_max ≤ x_min` the optimizer returns exactly `(0, 0)`. -/
theorem C9_default_cap_and_degenerate (cycle : List Edge) (e0 : Edge) (rest : List Edge)
    (hc : cycle = e0 :: rest) (x_min tol : ℚ) (max_iter : ℕ) :
    maximize_profit_for_cycle cycle x_min none tol max_iter =
      maximize_profit_for_cycle cycle x_min
        (some (max (1 / 1000000 : ℚ) (e0.reserve_in * (2 / 10)))) tol max_iter ∧
    ∀ xm : ℚ, xm ≤ x_min →
      maximize_profit_for_cycle cycle x_min (some xm) tol max_iter = some (0, 0) := by
  subst hc
  constructor
  · rfl
  · intro xm hxm
    simp only [maximize_profit_for_cycle]
    rw [if_pos hxm]

theorem C9_default_cap_and_degenerate_witness :
    rtCycle = poolFwdEdge rtPool :: [poolBwdEdge rtPool] ∧
      (maximize_profit_for_cycle rtCycle 1 none (1 / 10 ^ 6) 80 =
        maximize_profit_for_cycle rtCycle 1
          (some (max (1 / 1000000 : ℚ) ((poolFwdEdge rtPool).reserve_in * (2 / 10))))
          (1 / 10 ^ 6) 80 ∧
      ∀ xm : ℚ, xm ≤ 1 →
        maximize_profit_for_cycle rtCycle 1 (some xm) (1 / 10 ^ 6) 80 = some (0, 0)) :=
  ⟨rfl, C9_default_cap_and_degenerate rtCycle (poolFwdEdge rtPool) [poolBwdEdge rtPool]
    rfl 1 (1 / 10 ^ 6) 80⟩

theorem concatMap_all {α β : Type _} (p : β → Bool) (f : α → List β) :
    ∀ l : List α, (concatMap f l).all p = l.all (fun x => (f x).all p) := by
  intro l
  induction l with
  | nil => rfl
  | cons a as ih => simp [concatMap, List.all_append, ih]

/-- C10: every Opportunity returned by `find_and_optimize_cycles` has
`best_profit` strictly greater than `min_profit_threshold`. -/
theorem C10_threshold_filtering (pools : List Pool) (max_cycle_len : ℕ) (thr : ℚ) :
    (find_and_optimize_cycles pools max_cycle_len thr).all
      (fun opp => decide (thr < opp.best_profit)) = true := by
  have hdef : find_and_optimize_cycles pools max_cycle_len thr =
      concatMap (opportunityOfCycle thr)
        ((find_simple_cycles (build_graph_from_pools pools) max_cycle_len).enum) := rfl
  rw [hdef, concatMap_all, List.all_eq_true]
  intro ic _
  show (opportunityOfCycle thr ic).all (fun opp => decide (thr < opp.best_profit)) = true
  rcases hres : maximize_profit_for_cycle ic.2 X_MIN_DEFAULT none TOL_DEFAULT 80 with _ | ⟨bx, pb⟩
  · simp [opportunityOfCycle, hres]
  · by_cases h : thr < pb
    · simp [opportunityOfCycle, hres, h]
    · simp [opportunityOfCycle, hres, h]

end GraphFinder
